import Mathlib

/-!
# Verification of the abstract-image-generation core

A shallow embedding, over `ℕ`, `ℤ` and `ℚ`, of the deterministic pieces of the
abstract-image generator: the linear-congruential PRNG (`SeededRandom`), the
content hash, the content analyzer's metric extraction, the parameter mapper
(`SeedGenerator`), the Perlin noise field, the shape-selection arithmetic of the
composition renderer, and the direct crop of the multi-format deriver.

JavaScript numbers are IEEE doubles; every quantity these components compute
stays inside the exactly-representable dyadic rationals (the LCG state is an
integer below `2^32 * 1664525 < 2^53`), so `ℚ` models the arithmetic exactly.
Signed 32-bit wraparound (`x | 0`, `x & x`, `<<`) is modelled by `toInt32`.
-/

namespace AbstractImage

/-! ## Seeded PRNG (visualGeneratorNode.js, class SeededRandom)

Each `random()` call performs
`current = (current * 1664525 + 1013904223) % 4294967296`
and returns `current / 4294967296`. The state is always a natural number below
`2^32` after the first step, and the whole computation is exact in doubles. -/

structure SeededRandom where
  current : ℕ
  deriving DecidableEq, Repr

namespace SeededRandom

/-- One draw: returns the value in `[0,1)` and the advanced generator. -/
def random (r : SeededRandom) : ℚ × SeededRandom :=
  let c := (r.current * 1664525 + 1013904223) % 4294967296
  ((c : ℚ) / 4294967296, ⟨c⟩)

end SeededRandom

/-! ## Signed 32-bit helpers (JS `& `, `<<`, `Math.abs`) -/

/-- JS `ToInt32`: reduce mod `2^32` into the signed range `[-2^31, 2^31)`. -/
def toInt32 (n : ℤ) : ℤ :=
  let r := n % 4294967296
  if r < 2147483648 then r else r - 4294967296

/-- JS `%` (remainder truncating toward zero) on rationals. -/
def ratTrunc (q : ℚ) : ℤ := if 0 ≤ q then ⌊q⌋ else ⌈q⌉

/-- JS `a % m` for numbers: `a - m * trunc (a / m)`. -/
def jsRem (a m : ℚ) : ℚ := a - m * ratTrunc (a / m)

/-- JS `Math.round`: round half toward positive infinity. -/
def jsRound (q : ℚ) : ℤ := ⌊q + 1/2⌋

/-- JS `v || d` for an optional numeric style override: `0` (and a missing
value) is falsy and selects the default. -/
def jsOr (v : Option ℚ) (d : ℚ) : ℚ :=
  match v with
  | none => d
  | some x => if x = 0 then d else x

/-! ## Content hash (contentAnalyzer.js `getHash`, seedGenerator.js `hashContent`)

Both files contain the identical loop
`hash = ((hash << 5) - hash) + char; hash = hash & hash;` followed by
`Math.abs(hash)`.  `<< 5` and `& hash` are signed 32-bit operations. -/

/-- One loop iteration of `hashContent`/`getHash` on a UTF-16 code unit. -/
def hashStep (h : ℤ) (c : ℕ) : ℤ := toInt32 (toInt32 (h * 32) - h + c)

/-- Model of `hashContent(str)` / `ContentAnalyzer.getHash()`: fold `hashStep`
over the character codes, then `Math.abs`. -/
def hashContent (codes : List ℕ) : ℤ := |codes.foldl hashStep 0|

/-- One step of the rolling hash exactly as the claim words it:
`hash = (hash*31 + charCode) mod 2^32`. -/
def specStep (h : ℤ) (c : ℕ) : ℤ := (h * 31 + c) % 4294967296

/-- The hash as the claim words it: `specStep` accumulated left-to-right,
absolute value taken.  (Stated from the spec's sentence, for comparison with
`hashContent`.) -/
def specRollingHash (codes : List ℕ) : ℤ := |codes.foldl specStep 0|

/-! ## Content metrics (contentAnalyzer.js)

Strings are modelled as lists of characters; `analyze` produces the metrics
record.  The regexes of `cleanText`, `getWords` and `getParagraphCount` are
embedded as character-list scanners with the same match semantics. -/

/-- JS regex `\s` (the whitespace characters relevant to this pipeline). -/
def jsSpace (c : Char) : Bool :=
  c = ' ' || c = '\t' || c = '\n' || c = '\r' ||
  c = '\x0b' || c = '\x0c' || c = '\u00A0'

/-- JS regex `\w`, i.e. `[A-Za-z0-9_]`. -/
def jsWordChar (c : Char) : Bool :=
  ('a' ≤ c && c ≤ 'z') || ('A' ≤ c && c ≤ 'Z') || ('0' ≤ c && c ≤ '9') || c = '_'

/-- Model of `text.replace(/<[^>]*>/g, ' ')`: each maximal `<...>` match
becomes one space; an unterminated `<` sequence is kept verbatim.  `inTag` records whether
we are inside a candidate match, `pend` the candidate's characters (reversed)
in case no `'>'` ever closes it. -/
def stripTagsAux : Bool → List Char → List Char → List Char
  | false, _, [] => []
  | true, pend, [] => '<' :: pend.reverse
  | false, _, c :: rest =>
      if c = '<' then stripTagsAux true [] rest
      else c :: stripTagsAux false [] rest
  | true, pend, c :: rest =>
      if c = '>' then ' ' :: stripTagsAux false [] rest
      else stripTagsAux true (c :: pend) rest

def stripTags (s : List Char) : List Char := stripTagsAux false [] s

/-- Whether the pattern list is an initial segment of the subject list. -/
def startsWith : List Char → List Char → Bool
  | [], _ => true
  | _ :: _, [] => false
  | p :: ps, c :: cs => p = c && startsWith ps cs

/-- Model of `s.replace(pat, repl)` with a global literal nonempty pattern
(non-overlapping, left to right).  `skip` counts pattern characters of the
match just emitted that remain to be consumed. -/
def replaceAllAux (pat r : List Char) : ℕ → List Char → List Char
  | _, [] => []
  | k + 1, _ :: cs => replaceAllAux pat r k cs
  | 0, c :: cs =>
    if startsWith pat (c :: cs) then r ++ replaceAllAux pat r (pat.length - 1) cs
    else c :: replaceAllAux pat r 0 cs

def replaceAll (pat r s : List Char) : List Char := replaceAllAux pat r 0 s

/-- Decode the six HTML entities, in the source's order. -/
def decodeEntities (s : List Char) : List Char :=
  replaceAll "&#39;".toList "'".toList
    (replaceAll "&quot;".toList "\"".toList
      (replaceAll "&gt;".toList ">".toList
        (replaceAll "&lt;".toList "<".toList
          (replaceAll "&amp;".toList "&".toList
            (replaceAll "&nbsp;".toList " ".toList s)))))

/-- Model of `cleaned.replace(/\s+/g, ' ')`: whitespace runs become one space. -/
def collapseWsAux : Bool → List Char → List Char
  | _, [] => []
  | prevSpace, c :: cs =>
    if jsSpace c then
      if prevSpace then collapseWsAux true cs else ' ' :: collapseWsAux true cs
    else c :: collapseWsAux false cs

def collapseWs (s : List Char) : List Char := collapseWsAux false s

/-- Model of JS `String.prototype.trim`. -/
def jsTrim (s : List Char) : List Char :=
  ((s.dropWhile jsSpace).reverse.dropWhile jsSpace).reverse

/-- Model of `ContentAnalyzer.cleanText`. -/
def cleanText (s : List Char) : List Char :=
  jsTrim (collapseWs (decodeEntities (stripTags s)))

/-- Maximal runs of non-whitespace characters: `split(/\s+/)` followed by the
source's `filter(word => word.length > 0)`.  `cur` is the run being built,
reversed. -/
def splitWsAux : List Char → List Char → List (List Char)
  | cur, [] => if cur.isEmpty then [] else [cur.reverse]
  | cur, c :: cs =>
    if jsSpace c then
      if cur.isEmpty then splitWsAux [] cs else cur.reverse :: splitWsAux [] cs
    else splitWsAux (c :: cur) cs

def splitWsRuns (s : List Char) : List (List Char) := splitWsAux [] s

/-- Model of `ContentAnalyzer.getWords`. -/
def getWords (clean : List Char) : List (List Char) :=
  ((splitWsRuns (clean.map Char.toLower)).map
    (fun w => w.filter jsWordChar)).filter (fun w => w.length > 0)

/-- Count of `/<p[^>]*>/gi` matches (non-overlapping, leftmost first).
`inTag` is set between a `<p`/`<P` opener and the `'>'` completing the match;
input exhausted inside a candidate means no match there and none later. -/
def countPTagsAux : Bool → List Char → ℕ
  | _, [] => 0
  | true, c :: rest =>
    if c = '>' then countPTagsAux false rest + 1 else countPTagsAux true rest
  | false, '<' :: c :: rest =>
    if c = 'p' ∨ c = 'P' then countPTagsAux true rest
    else countPTagsAux false (c :: rest)
  | false, _ :: rest => countPTagsAux false rest

def countPTags (s : List Char) : ℕ := countPTagsAux false s

/-- Index of the last `'\n'` in a list. -/
def lastNl : List Char → Option ℕ
  | [] => none
  | c :: cs =>
    match lastNl cs with
    | some i => some (i + 1)
    | none => if c = '\n' then some 0 else none

/-- Index of the last adjacent `'\r','\n'` pair. -/
def lastCrLf : List Char → Option ℕ
  | [] => none
  | [_] => none
  | c1 :: c2 :: cs =>
    match lastCrLf (c2 :: cs) with
    | some i => some (i + 1)
    | none => if c1 = '\r' ∧ c2 = '\n' then some 0 else none

/-- Length of the (greedy, backtracking) match of `/\n\s*\n|\r\n\s*\r\n/` at
the head of `s`, if any: the first alternative takes the whitespace run after
the opening `'\n'` up to its last `'\n'`; the second analogously up to the
last `"\r\n"`. -/
def sepMatchLen (s : List Char) : Option ℕ :=
  match s with
  | '\n' :: rest => (lastNl (rest.takeWhile jsSpace)).map (fun i => i + 2)
  | '\r' :: '\n' :: rest => (lastCrLf (rest.takeWhile jsSpace)).map (fun i => i + 4)
  | _ => none

/-- Model of `rawContent.split(/\n\s*\n|\r\n\s*\r\n/)`: cut the text at each
separator match.  `skip` counts separator characters still to consume after a
match; `cur` is the current segment, reversed. -/
def splitBlankAux : ℕ → List Char → List Char → List (List Char)
  | _, cur, [] => [cur.reverse]
  | k + 1, cur, _ :: cs => splitBlankAux k cur cs
  | 0, cur, c :: cs =>
    match sepMatchLen (c :: cs) with
    | some n => cur.reverse :: splitBlankAux (n - 1) [] cs
    | none => splitBlankAux 0 (c :: cur) cs

def splitBlank (s : List Char) : List (List Char) := splitBlankAux 0 [] s

/-- Model of `ContentAnalyzer.getParagraphCount`: count `<p...>` tags when
present, otherwise non-blank segments between blank-line separators, floored
at 1. -/
def getParagraphCount (raw : List Char) : ℕ :=
  let htmlParagraphs := countPTags raw
  if 0 < htmlParagraphs then htmlParagraphs
  else
    max ((splitBlank raw).filter (fun para => 0 < (jsTrim para).length)).length 1

/-- ContentMetrics value object: the record returned by
`ContentAnalyzer.analyze` (the `words` and `cleanContent` fields are carried
along as in the source). -/
structure ContentMetrics where
  characters : ℕ
  wordCount : ℕ
  avgWordLength : ℚ
  readingTime : ℕ
  paragraphCount : ℕ
  words : List (List Char)
  cleanContent : List Char
  deriving DecidableEq, Repr

/-- Model of `ContentAnalyzer.analyze` on raw input text. -/
def analyze (raw : List Char) : ContentMetrics :=
  let clean := cleanText raw
  let words := getWords clean
  let wordCount := words.length
  let avgRaw : ℚ :=
    if 0 < wordCount then
      ((words.map List.length).sum : ℚ) / wordCount
    else 0
  { characters := clean.length
  , wordCount := wordCount
  , avgWordLength := (jsRound (avgRaw * 10) : ℚ) / 10
  , readingTime := (⌈(wordCount : ℚ) / 200⌉).toNat
  , paragraphCount := getParagraphCount raw
  , words := words
  , cleanContent := clean }

/-! ## Parameter mapper (seedGenerator.js, class SeedGenerator) -/

/-- Model of `SeedGenerator.generateSeed`:
`Math.abs(Math.floor(wordCount*137 + characters*31 + avgWordLength*17))`. -/
def generateSeed (m : ContentMetrics) : ℤ :=
  |⌊(m.wordCount : ℚ) * 137 + (m.characters : ℚ) * 31 + m.avgWordLength * 17⌋|

/-- VisualParameters value object.  `minStroke`/`maxStroke` are the externally
supplied style overrides attached to the params object by the callers
(`imageGenerator.js`, `web/app.js`); `none` models an absent property. -/
structure VisualParams where
  seed : ℤ
  density : ℚ
  complexity : ℚ
  smoothness : ℚ
  layers : ℚ
  shapeVertices : ℕ
  paletteIndex : ℤ
  minStroke : Option ℚ := none
  maxStroke : Option ℚ := none
  deriving DecidableEq, Repr

/-- Model of `SeedGenerator.generateVisualParams`. -/
def generateVisualParams (m : ContentMetrics) : VisualParams :=
  { seed := generateSeed m
  , density := min ((m.wordCount : ℚ) / 1000) 1
  , complexity := min ((m.characters : ℚ) / 5000) 1
  , smoothness := min (m.avgWordLength / 10) 1
  , layers := min (m.readingTime : ℚ) 10
  , shapeVertices := min (max m.paragraphCount 3) 20
  , paletteIndex := hashContent (m.cleanContent.map Char.toNat) % 10 }

/-! ## Palette table (visualGeneratorNode.js `initColorPalettes`; the browser
generators return the identical table) -/

structure Palette where
  bg : List String
  accents : List String
  deriving DecidableEq, Repr

def colorPalettes : List Palette :=
  [ { bg := ["#FF6B6B", "#FFE66D"], accents := ["#4ECDC4", "#FF6B9D", "#C44569"] }
  , { bg := ["#667eea", "#764ba2"], accents := ["#f093fb", "#4facfe", "#43e97b"] }
  , { bg := ["#134E5E", "#71B280"], accents := ["#A8E6CF", "#DCEDC1", "#FFD3B6"] }
  , { bg := ["#A770EF", "#CF8BF3"], accents := ["#FDB99B", "#E8D5B7", "#B8E1DD"] }
  , { bg := ["#0F2027", "#203A43", "#2C5364"], accents := ["#F857A6", "#FF5858", "#FFC371"] }
  , { bg := ["#FFA07A", "#FF6B9D"], accents := ["#C44569", "#8B4367", "#1F4068"] }
  , { bg := ["#56CCF2", "#2F80ED"], accents := ["#6FCF97", "#F2C94C", "#EB5757"] }
  , { bg := ["#D4A5A5", "#9A86A4"], accents := ["#6C9A8B", "#E9B384", "#F4F2DE"] }
  , { bg := ["#FF9A8B", "#FF6A88"], accents := ["#FF99AC", "#FFEAA7", "#74B9FF"] }
  , { bg := ["#00B4DB", "#0083B0"], accents := ["#74EBD5", "#ACB6E5", "#86A8E7"] } ]

/-! ## Perlin noise (visualGeneratorNode.js, class PerlinNoise) -/

/-- Swap of two positions of a list, as the destructuring assignment
`[p[i], p[j]] = [p[j], p[i]]`. -/
def listSwap (l : List ℕ) (i j : ℕ) : List ℕ :=
  let a := l.getD i 0
  let b := l.getD j 0
  (l.set i b).set j a

/-- Fisher-Yates loop of `generatePermutation`, processing indices
`i, i-1, ..., 1`: `j = Math.floor(rng.random() * (i + 1))`, then swap. -/
def fyRun : List ℕ → SeededRandom → ℕ → List ℕ × SeededRandom
  | l, rng, 0 => (l, rng)
  | l, rng, i + 1 =>
    let (r, rng') := rng.random
    let j := (⌊r * ((i + 1 : ℕ) + 1 : ℚ)⌋).toNat
    fyRun (listSwap l (i + 1) j) rng' i

/-- Model of `PerlinNoise.generatePermutation`: shuffle `[0..255]` with a
PRNG seeded identically, then duplicate the table. -/
def generatePermutation (seed : ℕ) : List ℕ :=
  let p := (fyRun (List.range 256) ⟨seed⟩ 255).1
  p ++ p

structure PerlinNoise where
  permutation : List ℕ
  deriving DecidableEq, Repr

/-- Model of `new PerlinNoise(seed)`. -/
def mkPerlinNoise (seed : ℕ) : PerlinNoise :=
  ⟨generatePermutation seed⟩

namespace PerlinNoise

/-- Fade curve `t*t*t*(t*(t*6-15)+10)`. -/
def fade (t : ℚ) : ℚ := t * t * t * (t * (t * 6 - 15) + 10)

/-- Linear interpolation `a + t*(b-a)`. -/
def lerp (a b t : ℚ) : ℚ := a + t * (b - a)

/-- Gradient selection: `h = hash & 3`; `u/v` swap for `h ≥ 2`; sign from
`h & 1` and `h & 2`. -/
def grad (hash : ℕ) (x y : ℚ) : ℚ :=
  let h := hash % 4
  let u := if h < 2 then x else y
  let v := if h < 2 then y else x
  (if h % 2 = 0 then u else -u) + (if h < 2 then v else -v)

/-- Model of `PerlinNoise.get`.  `Math.floor(x) & 255` is `⌊x⌋ % 256` (the
`ToInt32` wrap before `& 255` agrees with it because `256 ∣ 2^32`); the
`x -= Math.floor(x)` fractional parts lie in `[0,1)`. -/
def get (n : PerlinNoise) (x y : ℚ) : ℚ :=
  let X := (⌊x⌋ % 256).toNat
  let Y := (⌊y⌋ % 256).toNat
  let xf := x - ⌊x⌋
  let yf := y - ⌊y⌋
  let u := fade xf
  let v := fade yf
  let P := fun i => n.permutation.getD i 0
  let aa := P (P X + Y)
  let ab := P (P X + Y + 1)
  let ba := P (P (X + 1) + Y)
  let bb := P (P (X + 1) + Y + 1)
  let res := lerp (lerp (grad aa xf yf) (grad ba (xf - 1) yf) u)
                  (lerp (grad ab xf (yf - 1)) (grad bb (xf - 1) (yf - 1)) u) v
  (res + 1) / 2

end PerlinNoise

/-! ## Composition renderer (visualGeneratorNode.js `drawOrganicFlows`)

The renderer is modelled as a trace of draw commands: the pixels it paints are
backend business, but the positions, sizes, shape kinds, colors and stroke
widths it chooses are pure arithmetic over the parameters and the PRNG. -/

inductive ShapeKind
  | circle
  | star
  | rectangle
  | polygon
  | blob
  deriving DecidableEq, Repr

/-- Selector arithmetic `(offset * 37 + smoothness * 100) % 100`. -/
def shapeSelector (offset : ℕ) (smoothness : ℚ) : ℚ :=
  jsRem ((offset : ℚ) * 37 + smoothness * 100) 100

/-- The `if/else` threshold chain on the selector. -/
def selectShape (sel : ℚ) : ShapeKind :=
  if sel < 20 then .circle
  else if sel < 35 then .star
  else if sel < 50 then .rectangle
  else if sel < 70 then .polygon
  else .blob

/-- One flow of `drawOrganicFlows`: three PRNG draws for position and size,
then the deterministic shape selection. -/
structure FlowDraw where
  x : ℚ
  y : ℚ
  size : ℚ
  kind : ShapeKind
  colorIdx : ℕ
  deriving DecidableEq, Repr

def flowStep (p : VisualParams) (width height : ℚ) (layer flow : ℕ)
    (rng : SeededRandom) : FlowDraw × SeededRandom :=
  let (r1, rng1) := rng.random
  let x := r1 * width
  let (r2, rng2) := rng1.random
  let y := r2 * height
  let (r3, rng3) := rng2.random
  let size := 50 + r3 * (150 * p.complexity)
  let offset := flow + layer * 100
  ({ x := x, y := y, size := size
   , kind := selectShape (shapeSelector offset p.smoothness)
   , colorIdx := flow % 3 }, rng3)

/-- Renderer's layer count: `Math.max(3, Math.floor(this.params.layers))`. -/
def numLayers (p : VisualParams) : ℤ := max 3 ⌊p.layers⌋

/-- Renderer's flow count: `Math.floor(5 + this.params.density * 10)`. -/
def numFlows (p : VisualParams) : ℤ := ⌊5 + p.density * 10⌋

/-- Renderer's noise scale `0.005 / (smoothness + 0.1)`. -/
def rendererNoiseScale (p : VisualParams) : ℚ := (5 / 1000) / (p.smoothness + 1 / 10)

/-- Stroke width of the flowing curves in the node backend:
`minStroke = this.params.minStroke || 0.5`, `maxStroke = ... || 1.5`,
`ctx.lineWidth = minStroke + complexity * (maxStroke - minStroke)`. -/
def curveLineWidth (p : VisualParams) : ℚ :=
  let minStroke := jsOr p.minStroke (1 / 2)
  let maxStroke := jsOr p.maxStroke (3 / 2)
  minStroke + p.complexity * (maxStroke - minStroke)

/-- Stroke weight of the flowing curves in the p5 browser backend
(visualGenerator.js): `p.strokeWeight(2 + this.params.complexity * 3)`. -/
def p5CurveStrokeWeight (p : VisualParams) : ℚ := 2 + p.complexity * 3

inductive DrawCmd
  | shape (d : FlowDraw)
  | curve (lineWidth : ℚ) (colorIdx : ℕ) (offset : ℕ)
  deriving DecidableEq, Repr

/-- One step of the inner flow loop: append the flow's shape command and
thread the PRNG. -/
def flowFold (p : VisualParams) (width height : ℚ) (layer : ℕ)
    (acc : List DrawCmd × SeededRandom) (flow : ℕ) : List DrawCmd × SeededRandom :=
  (acc.1 ++ [DrawCmd.shape (flowStep p width height layer flow acc.2).1],
   (flowStep p width height layer flow acc.2).2)

/-- Inner flow loop of a layer: emit one shape command per flow. -/
def flowCmds (p : VisualParams) (width height : ℚ) (layer nF : ℕ)
    (rng : SeededRandom) : List DrawCmd × SeededRandom :=
  (List.range nF).foldl (flowFold p width height layer) ([], rng)

/-- Curve loop of a layer: 3 curves, color cycling by index, offset
`i + layer * 10`, stroked at `curveLineWidth`. -/
def curveCmds (p : VisualParams) (layer : ℕ) : List DrawCmd :=
  (List.range 3).map (fun i => DrawCmd.curve (curveLineWidth p) (i % 3) (i + layer * 10))

/-- One step of the outer layer loop: the layer's flows, then its 3 curves. -/
def layerFold (p : VisualParams) (width height : ℚ)
    (acc : List DrawCmd × SeededRandom) (layer : ℕ) : List DrawCmd × SeededRandom :=
  (acc.1 ++ (flowCmds p width height layer (numFlows p).toNat acc.2).1 ++ curveCmds p layer,
   (flowCmds p width height layer (numFlows p).toNat acc.2).2)

/-- Model of the node backend's `drawOrganicFlows` as a command trace. -/
def drawOrganicFlows (p : VisualParams) (width height : ℚ)
    (rng : SeededRandom) : List DrawCmd × SeededRandom :=
  (List.range (numLayers p).toNat).foldl (layerFold p width height) ([], rng)

/-- Stroke width carried by a curve command (`none` for shape commands). -/
def curveWidthOf : DrawCmd → Option ℚ
  | DrawCmd.curve wd _ _ => some wd
  | DrawCmd.shape _ => none

/-! ## Multi-format deriver, direct crop (imageGenerator.js `applyCropMode`,
web/app.js `createCroppedCanvas`) -/

/-- A raster pixel: RGBA. -/
structure Rgba where
  r : ℕ
  g : ℕ
  b : ℕ
  a : ℕ
  deriving DecidableEq, Repr

/-- Transparent black, the initial content of a fresh canvas and the value
read outside the source rectangle. -/
def transparent : Rgba := ⟨0, 0, 0, 0⟩

/-- A canvas as a grid of pixels, row-major. -/
structure Canvas where
  width : ℕ
  height : ℕ
  data : List (List Rgba)
  deriving DecidableEq, Repr

/-- A canvas whose data really is a `height` list of `width` rows. -/
def Canvas.wf (c : Canvas) : Prop :=
  c.data.length = c.height ∧ ∀ row ∈ c.data, row.length = c.width

def Canvas.pixel (c : Canvas) (x y : ℕ) : Rgba :=
  (c.data.getD y []).getD x transparent

/-- Direct crop mode of `applyCropMode`/`createCroppedCanvas`:
`ctx.drawImage(source, 0, 0, w, h, 0, 0, w, h)` onto a fresh `w × h` canvas —
copy the top-left `w × h` rectangle of the source verbatim. -/
def directCrop (src : Canvas) (tw th : ℕ) : Canvas :=
  { width := tw
  , height := th
  , data := (List.range th).map (fun y => (List.range tw).map (fun x => src.pixel x y)) }

/-! ## Arithmetic helper lemmas -/

theorem toInt32_emod (x : ℤ) : toInt32 x % 4294967296 = x % 4294967296 := by
  unfold toInt32
  dsimp only
  split <;> omega

theorem toInt32_congr {x y : ℤ} (h : x % 4294967296 = y % 4294967296) :
    toInt32 x = toInt32 y := by
  unfold toInt32
  dsimp only
  rw [h]

theorem hashStep_toInt32 (x : ℤ) (c : ℕ) :
    hashStep (toInt32 x) c = toInt32 (x * 31 + c) := by
  unfold hashStep
  apply toInt32_congr
  have h1 := toInt32_emod (toInt32 x * 32)
  have h2 := toInt32_emod x
  omega

theorem foldl_hashStep_eq (codes : List ℕ) : ∀ x : ℤ,
    codes.foldl hashStep (toInt32 x) = toInt32 (codes.foldl specStep (x % 4294967296)) := by
  induction codes with
  | nil =>
    intro x
    simp only [List.foldl]
    exact toInt32_congr (by omega)
  | cons c cs ih =>
    intro x
    simp only [List.foldl]
    rw [hashStep_toInt32, ih (x * 31 + c)]
    have harg : (x * 31 + (c : ℤ)) % 4294967296 = specStep (x % 4294967296) c := by
      simp only [specStep]
      omega
    rw [harg]

theorem specFold_range (codes : List ℕ) : ∀ x : ℤ, 0 ≤ x → x < 4294967296 →
    0 ≤ codes.foldl specStep x ∧ codes.foldl specStep x < 4294967296 := by
  induction codes with
  | nil =>
    intro x h0 h1
    exact ⟨h0, h1⟩
  | cons c cs ih =>
    intro x h0 h1
    simp only [List.foldl]
    refine ih _ ?_ ?_ <;> simp only [specStep] <;> omega

/-! ## Claim theorems -/

/-- C1 (counterexample): the claim's literal golden value is wrong: the first
`next()` for seed 42 is `1083814273 / 2^32`, not `1013904223 / 2^32` — the
claim's own formula `(42*1664525 + 1013904223) mod 2^32` gives `1083814273`. -/
theorem prng_seed42_first_draw_counterexample :
    (SeededRandom.random ⟨42⟩).1 ≠ 1013904223 / 4294967296 := by
  simp only [SeededRandom.random]
  norm_num

/-- C1 (amended): every `next()` call steps the state by
`state = (state*1664525 + 1013904223) mod 2^32` and returns `state / 2^32`,
a rational in `[0,1)`; for seed 42 the first draw is exactly
`1083814273 / 2^32` (and is therefore reproducible for a fixed seed, `random`
being a pure function of the state). -/
theorem prng_lcg_step (r : SeededRandom) :
    r.random.2.current = (r.current * 1664525 + 1013904223) % 2 ^ 32 ∧
    r.random.1 = (((r.current * 1664525 + 1013904223) % 2 ^ 32 : ℕ) : ℚ) / 2 ^ 32 ∧
    0 ≤ r.random.1 ∧ r.random.1 < 1 ∧
    (SeededRandom.random ⟨42⟩).1 = 1083814273 / 4294967296 := by
  refine ⟨rfl, by norm_num [SeededRandom.random], ?_, ?_, by norm_num [SeededRandom.random]⟩
  · simp only [SeededRandom.random]
    positivity
  · simp only [SeededRandom.random]
    rw [div_lt_one (by norm_num)]
    have h : (r.current * 1664525 + 1013904223) % 4294967296 < 4294967296 :=
      Nat.mod_lt _ (by norm_num)
    exact_mod_cast h

/-- C2: the layer count consumed by the renderer
(`Math.max(3, Math.floor(params.layers))` over the mapper's
`layers = Math.min(readingTime, 10)`) equals
`max(3, floor(min(readingTimeMinutes, 10)))` and lies in `[3, 10]`. -/
theorem layer_count_clamped (m : ContentMetrics) :
    numLayers (generateVisualParams m) = max 3 (min (m.readingTime : ℤ) 10) ∧
    3 ≤ numLayers (generateVisualParams m) ∧
    numLayers (generateVisualParams m) ≤ 10 := by
  have h : numLayers (generateVisualParams m) = max 3 (min (m.readingTime : ℤ) 10) := by
    simp only [numLayers, generateVisualParams]
    congr 1
    have hcast : ((min (m.readingTime : ℤ) 10 : ℤ) : ℚ) = min ((m.readingTime : ℕ) : ℚ) 10 := by
      push_cast
      rfl
    rw [← hcast, Int.floor_intCast]
  refine ⟨h, ?_, ?_⟩ <;> rw [h] <;> omega

set_option maxRecDepth 8000 in
/-- C3 (counterexample): on the cleaned text `"aaaaaaa"` (seven `'a'`s, char
code 97) the implemented hash is `1236860927` while the claim's formula —
accumulate `(hash*31 + charCode) mod 2^32`, then absolute value — gives
`3058106369`: the code folds in signed 32-bit arithmetic before `Math.abs`. -/
theorem content_hash_counterexample :
    hashContent (List.replicate 7 97) ≠ specRollingHash (List.replicate 7 97) := by
  decide

/-- C3 (amended): `contentHash` equals the mod-`2^32` rolling hash
reinterpreted as a signed 32-bit integer before the absolute value: with
`r` the left-to-right fold of `(hash*31 + charCode) mod 2^32` from 0, the
result is `r` when `r < 2^31` and `2^32 - r` otherwise, an integer in
`[0, 2^31]`. -/
theorem content_hash_signed_of_rolling (codes : List ℕ) :
    (hashContent codes =
      if codes.foldl specStep 0 < 2147483648 then codes.foldl specStep 0
      else 4294967296 - codes.foldl specStep 0) ∧
    0 ≤ hashContent codes ∧ hashContent codes ≤ 2 ^ 31 := by
  have hrange := specFold_range codes 0 (le_refl 0) (by norm_num)
  have hfold : codes.foldl hashStep 0 = toInt32 (codes.foldl specStep 0) := by
    have h0 : (0 : ℤ) = toInt32 0 := by norm_num [toInt32]
    calc codes.foldl hashStep 0
        = codes.foldl hashStep (toInt32 0) := by rw [← h0]
      _ = toInt32 (codes.foldl specStep (0 % 4294967296)) := foldl_hashStep_eq codes 0
      _ = toInt32 (codes.foldl specStep 0) := by norm_num
  have hmain : hashContent codes =
      if codes.foldl specStep 0 < 2147483648 then codes.foldl specStep 0
      else 4294967296 - codes.foldl specStep 0 := by
    unfold hashContent
    rw [hfold]
    unfold toInt32
    dsimp only
    rw [Int.emod_eq_of_lt hrange.1 hrange.2]
    split
    · exact abs_of_nonneg hrange.1
    · rw [abs_of_nonpos (by omega)]
      ring
  refine ⟨hmain, ?_, ?_⟩ <;> rw [hmain] <;> split <;> omega

/-- C8: on the input text `"Hello world. This is a test."` the analyzer
produces the cleaned word list `["hello","world","this","is","a","test"]`,
`wordCount = 6`, `readingTimeMinutes = 1`, and
`avgWordLength = 21/6 = 3.5`. -/
theorem metrics_literal_case :
    (analyze "Hello world. This is a test.".toList).words =
      ["hello".toList, "world".toList, "this".toList, "is".toList, "a".toList, "test".toList] ∧
    (analyze "Hello world. This is a test.".toList).wordCount = 6 ∧
    (analyze "Hello world. This is a test.".toList).readingTime = 1 ∧
    (analyze "Hello world. This is a test.".toList).avgWordLength = 7 / 2 := by
  have h1 : getWords (cleanText "Hello world. This is a test.".toList) =
      ["hello".toList, "world".toList, "this".toList, "is".toList, "a".toList, "test".toList] := by
    decide
  refine ⟨by decide, by decide, ?_, ?_⟩
  · simp only [analyze, h1]
    norm_num
    have h : (⌈(3/100 : ℚ)⌉ : ℤ) = 1 := by
      rw [Int.ceil_eq_iff]
      constructor <;> norm_num
    rw [h]
    rfl
  · simp only [analyze, h1]
    norm_num [jsRound]

/-- C9: the mapped `paletteIndex = contentHash mod 10` lies in `[0,9]` for
every metrics record; `hash mod 10 ∈ [0,9]` for every hash value; and the
fixed palette table has exactly 10 entries, so lookup succeeds at every
index in `[0,9]`. -/
theorem palette_index_bounded (m : ContentMetrics) :
    0 ≤ (generateVisualParams m).paletteIndex ∧
    (generateVisualParams m).paletteIndex ≤ 9 ∧
    (∀ h : ℕ, h % 10 ≤ 9) ∧
    colorPalettes.length = 10 ∧
    (∀ i : ℕ, i ≤ 9 → (colorPalettes.get? i).isSome) := by
  refine ⟨?_, ?_, fun h => by omega, by rfl, ?_⟩
  · simp only [generateVisualParams]
    exact Int.emod_nonneg _ (by norm_num)
  · simp only [generateVisualParams]
    have h := Int.emod_lt_of_pos (hashContent (m.cleanContent.map Char.toNat))
      (b := 10) (by norm_num)
    omega
  · intro i hi
    interval_cases i <;> rfl

/-- C9 witness: instantiation at a concrete metrics record and index 9. -/
theorem palette_index_bounded_witness :
    0 ≤ (generateVisualParams (analyze [])).paletteIndex ∧
    (generateVisualParams (analyze [])).paletteIndex ≤ 9 ∧
    (colorPalettes.get? 9).isSome := by
  obtain ⟨h1, h2, _, _, h5⟩ := palette_index_bounded (analyze [])
  exact ⟨h1, h2, h5 9 (by decide)⟩

/-- C10: the metrics extractor returns `paragraphCount ≥ 1` for every input,
including the empty string (where the blank-line branch floors the count of
non-empty segments at 1, pinning `paragraphCount = 1`). -/
theorem paragraph_count_at_least_one :
    (∀ raw : List Char, 1 ≤ getParagraphCount raw) ∧ getParagraphCount [] = 1 := by
  constructor
  · intro raw
    by_cases h : 0 < countPTags raw
    · simp only [getParagraphCount, if_pos h]
      omega
    · simp only [getParagraphCount, if_neg h]
      omega
  · decide

theorem jsRem_bounds (a : ℚ) (ha : 0 ≤ a) : 0 ≤ jsRem a 100 ∧ jsRem a 100 < 100 := by
  unfold jsRem ratTrunc
  rw [if_pos (by positivity)]
  have h1 : ((⌊a / 100⌋ : ℤ) : ℚ) ≤ a / 100 := Int.floor_le _
  have h2 : a / 100 < (⌊a / 100⌋ : ℚ) + 1 := Int.lt_floor_add_one _
  constructor <;> nlinarith

/-- C5: the shape selector `(offset*37 + smoothness*100) mod 100` is a
function of `(offset, smoothness)` alone: two flows with the same offset and
parameters draw the same shape kind whatever the PRNG state; for nonnegative
smoothness the selector lies in `[0,100)`; and the threshold chain maps
`[0,20)` to circle, `[20,35)` to star, `[35,50)` to rectangle, `[50,70)` to
polygon and `[70,100)` to blob. -/
theorem shape_selector_stable (p : VisualParams) (w h : ℚ) (l₁ f₁ l₂ f₂ : ℕ)
    (r₁ r₂ : SeededRandom) (hoff : f₁ + l₁ * 100 = f₂ + l₂ * 100)
    (hs : 0 ≤ p.smoothness) :
    (flowStep p w h l₁ f₁ r₁).1.kind = (flowStep p w h l₂ f₂ r₂).1.kind ∧
    (flowStep p w h l₁ f₁ r₁).1.kind =
      selectShape (shapeSelector (f₁ + l₁ * 100) p.smoothness) ∧
    (0 ≤ shapeSelector (f₁ + l₁ * 100) p.smoothness ∧
      shapeSelector (f₁ + l₁ * 100) p.smoothness < 100) ∧
    (∀ sel : ℚ,
      (0 ≤ sel → sel < 20 → selectShape sel = ShapeKind.circle) ∧
      (20 ≤ sel → sel < 35 → selectShape sel = ShapeKind.star) ∧
      (35 ≤ sel → sel < 50 → selectShape sel = ShapeKind.rectangle) ∧
      (50 ≤ sel → sel < 70 → selectShape sel = ShapeKind.polygon) ∧
      (70 ≤ sel → sel < 100 → selectShape sel = ShapeKind.blob)) := by
  have hsel : ∀ (l f : ℕ) (r : SeededRandom), (flowStep p w h l f r).1.kind =
      selectShape (shapeSelector (f + l * 100) p.smoothness) := fun _ _ _ => rfl
  have hnn : (0 : ℚ) ≤ ((f₁ + l₁ * 100 : ℕ) : ℚ) * 37 + p.smoothness * 100 :=
    add_nonneg (by positivity) (mul_nonneg hs (by norm_num))
  refine ⟨?_, hsel _ _ _, jsRem_bounds _ hnn, ?_⟩
  · rw [hsel, hsel, hoff]
  · intro sel
    refine ⟨fun h1 h2 => ?_, fun h1 h2 => ?_, fun h1 h2 => ?_, fun h1 h2 => ?_,
      fun h1 h2 => ?_⟩ <;>
      simp only [selectShape] <;> split_ifs <;> first | rfl | linarith

/-- C5 witness: two flows with offset 100 (flow 100 of layer 0, and flow 0 of
layer 1), smoothness 0, distinct PRNG states. -/
theorem shape_selector_stable_witness :
    ((flowStep ⟨0, 0, 0, 0, 0, 3, 0, none, none⟩ 0 0 0 100 ⟨0⟩).1.kind =
      (flowStep ⟨0, 0, 0, 0, 0, 3, 0, none, none⟩ 0 0 1 0 ⟨7⟩).1.kind) ∧
    ((flowStep ⟨0, 0, 0, 0, 0, 3, 0, none, none⟩ 0 0 0 100 ⟨0⟩).1.kind =
      selectShape (shapeSelector (100 + 0 * 100)
        (VisualParams.smoothness ⟨0, 0, 0, 0, 0, 3, 0, none, none⟩))) ∧
    (0 ≤ shapeSelector (100 + 0 * 100)
        (VisualParams.smoothness ⟨0, 0, 0, 0, 0, 3, 0, none, none⟩) ∧
      shapeSelector (100 + 0 * 100)
        (VisualParams.smoothness ⟨0, 0, 0, 0, 0, 3, 0, none, none⟩) < 100) ∧
    (∀ sel : ℚ,
      (0 ≤ sel → sel < 20 → selectShape sel = ShapeKind.circle) ∧
      (20 ≤ sel → sel < 35 → selectShape sel = ShapeKind.star) ∧
      (35 ≤ sel → sel < 50 → selectShape sel = ShapeKind.rectangle) ∧
      (50 ≤ sel → sel < 70 → selectShape sel = ShapeKind.polygon) ∧
      (70 ≤ sel → sel < 100 → selectShape sel = ShapeKind.blob)) :=
  shape_selector_stable ⟨0, 0, 0, 0, 0, 3, 0, none, none⟩ 0 0 0 100 1 0 ⟨0⟩ ⟨7⟩
    (by decide) (le_refl 0)

theorem flowFold_no_curves (p : VisualParams) (w h : ℚ) (layer : ℕ) (l : List ℕ)
    (acc : List DrawCmd × SeededRandom) :
    (l.foldl (flowFold p w h layer) acc).1.filterMap curveWidthOf =
      acc.1.filterMap curveWidthOf := by
  induction l generalizing acc with
  | nil => rfl
  | cons a l ih =>
    simp only [List.foldl]
    rw [ih]
    simp [flowFold, List.filterMap_append, curveWidthOf]

theorem flowCmds_no_curves (p : VisualParams) (w h : ℚ) (layer nF : ℕ)
    (rng : SeededRandom) :
    (flowCmds p w h layer nF rng).1.filterMap curveWidthOf = [] := by
  unfold flowCmds
  rw [flowFold_no_curves]
  rfl

theorem curveCmds_widths (p : VisualParams) (layer : ℕ) :
    (curveCmds p layer).filterMap curveWidthOf = List.replicate 3 (curveLineWidth p) := rfl

theorem layerFold_widths (p : VisualParams) (w h : ℚ) (l : List ℕ)
    (acc : List DrawCmd × SeededRandom) :
    (l.foldl (layerFold p w h) acc).1.filterMap curveWidthOf =
      acc.1.filterMap curveWidthOf ++ List.replicate (3 * l.length) (curveLineWidth p) := by
  induction l generalizing acc with
  | nil => simp
  | cons a l ih =>
    simp only [List.foldl]
    rw [ih]
    simp only [layerFold, List.filterMap_append, flowCmds_no_curves, curveCmds_widths,
      List.append_nil, List.length_cons]
    rw [List.append_assoc, ← List.replicate_add]
    congr 2
    omega

/-- C6 (counterexample): the stroke-width formula does not hold in both
backends: the p5 browser backend strokes the flowing curves with
`strokeWeight(2 + complexity*3)`, ignoring the style overrides, so with the
default overrides and complexity 0 it uses width 2 where the claimed formula
gives 1/2. -/
theorem curve_stroke_width_counterexample :
    p5CurveStrokeWeight ⟨0, 0, 0, 0, 0, 3, 0, none, none⟩ ≠
      curveLineWidth ⟨0, 0, 0, 0, 0, 3, 0, none, none⟩ := by
  norm_num [p5CurveStrokeWeight, curveLineWidth, jsOr]

/-- C6 (amended): in the node backend every flowing curve of every layer is
stroked with width exactly
`minStroke + complexity*(maxStroke - minStroke)` where the bounds are the
style overrides with falsy-defaults 0.5 and 1.5 (3 such curves per layer);
the p5 browser backend instead strokes with `2 + complexity*3`. -/
theorem node_curve_stroke_width (p : VisualParams) (w h : ℚ) (rng : SeededRandom) :
    (drawOrganicFlows p w h rng).1.filterMap curveWidthOf =
      List.replicate (3 * (numLayers p).toNat)
        (jsOr p.minStroke (1/2) +
          p.complexity * (jsOr p.maxStroke (3/2) - jsOr p.minStroke (1/2))) ∧
    p5CurveStrokeWeight p = 2 + p.complexity * 3 := by
  constructor
  · unfold drawOrganicFlows
    rw [layerFold_widths]
    simp [curveLineWidth]
  · rfl

/-- C7: deriving a format in direct crop mode with target size equal to the
master size returns a raster pixel-identical to the master: copying the
top-left `width × height` rectangle is the identity when it spans the whole
master (stated at the master size 1200 × 1200). -/
theorem direct_crop_identity (src : Canvas) (hw : src.width = 1200)
    (hh : src.height = 1200) (hwf : src.wf) : directCrop src 1200 1200 = src := by
  obtain ⟨hlen, hrow⟩ := hwf
  cases src with
  | mk w h data =>
    simp only at hlen hrow hw hh
    subst hw hh
    have hdata : (List.range 1200).map
        (fun y => (List.range 1200).map
          (fun x => Canvas.pixel ⟨1200, 1200, data⟩ x y)) = data := by
      apply List.ext_getElem
      · simp only [List.length_map, List.length_range, hlen]
      · intro y hy1 hy2
        simp only [List.getElem_map, List.getElem_range]
        have hyd : y < data.length := hy2
        have hrowy : data[y].length = 1200 := hrow _ (List.getElem_mem hyd)
        apply List.ext_getElem
        · simp only [List.length_map, List.length_range, hrowy]
        · intro x hx1 hx2
          simp only [List.getElem_map, List.getElem_range, Canvas.pixel]
          rw [List.getD_eq_getElem _ _ hyd, List.getD_eq_getElem]
    unfold directCrop
    rw [hdata]

/-- C7 witness: a uniform 1200 × 1200 master. -/
theorem direct_crop_identity_witness :
    directCrop ⟨1200, 1200, List.replicate 1200 (List.replicate 1200 ⟨0, 0, 0, 255⟩)⟩
        1200 1200 =
      ⟨1200, 1200, List.replicate 1200 (List.replicate 1200 ⟨0, 0, 0, 255⟩)⟩ :=
  direct_crop_identity _ rfl rfl
    ⟨by simp only [List.length_replicate], by
      intro row hr
      rw [List.eq_of_mem_replicate hr]
      simp only [List.length_replicate]⟩

/-! ## Noise boundedness lemmas -/

theorem fade_inner_pos (t : ℚ) : 0 < t * (t * 6 - 15) + 10 := by
  nlinarith [sq_nonneg (12 * t - 15)]

theorem fade_nonneg {t : ℚ} (ht : 0 ≤ t) : 0 ≤ PerlinNoise.fade t :=
  mul_nonneg (mul_nonneg (mul_nonneg ht ht) ht) (fade_inner_pos t).le

theorem fade_add_symm (t : ℚ) : PerlinNoise.fade t + PerlinNoise.fade (1 - t) = 1 := by
  unfold PerlinNoise.fade
  ring

theorem fade_le_one {t : ℚ} (_ht0 : 0 ≤ t) (ht1 : t ≤ 1) : PerlinNoise.fade t ≤ 1 := by
  have h1 := fade_nonneg (t := 1 - t) (by linarith)
  have h2 := fade_add_symm t
  linarith

theorem phi_le_half {t : ℚ} (ht0 : 0 ≤ t) (ht1 : t ≤ 1) :
    t + PerlinNoise.fade t * (1 - 2 * t) ≤ 1 / 2 := by
  have hq : 0 ≤ 6 * (t * (t - 1)) ^ 2 + 2 * t * (1 - t) + 1 := by
    nlinarith [sq_nonneg (t * (t - 1)), mul_nonneg ht0 (by linarith : (0:ℚ) ≤ 1 - t)]
  have hid : 1 / 2 - (t + PerlinNoise.fade t * (1 - 2 * t)) =
      1 / 2 * ((2 * t - 1) ^ 2 * (6 * (t * (t - 1)) ^ 2 + 2 * t * (1 - t) + 1)) := by
    unfold PerlinNoise.fade
    ring
  have hp := mul_nonneg (sq_nonneg (2 * t - 1)) hq
  linarith

theorem abs_grad_le (h : ℕ) (x y : ℚ) : |PerlinNoise.grad h x y| ≤ |x| + |y| := by
  unfold PerlinNoise.grad
  dsimp only
  split_ifs <;> refine (abs_add _ _).trans ?_ <;> (try simp only [abs_neg]) <;> linarith

theorem abs_lerp_le {a b u A B : ℚ} (hu0 : 0 ≤ u) (hu1 : u ≤ 1)
    (ha : |a| ≤ A) (hb : |b| ≤ B) :
    |PerlinNoise.lerp a b u| ≤ (1 - u) * A + u * B := by
  unfold PerlinNoise.lerp
  have h1 : a + u * (b - a) = (1 - u) * a + u * b := by ring
  rw [h1]
  calc |(1 - u) * a + u * b| ≤ |(1 - u) * a| + |u * b| := abs_add _ _
    _ = (1 - u) * |a| + u * |b| := by
        rw [abs_mul, abs_mul, abs_of_nonneg (by linarith), abs_of_nonneg hu0]
    _ ≤ (1 - u) * A + u * B :=
        add_le_add (mul_le_mul_of_nonneg_left ha (by linarith))
          (mul_le_mul_of_nonneg_left hb hu0)

theorem perlin_res_abs_le (aa ba ab bb : ℕ) {xf yf : ℚ}
    (hx0 : 0 ≤ xf) (hx1 : xf ≤ 1) (hy0 : 0 ≤ yf) (hy1 : yf ≤ 1) :
    |PerlinNoise.lerp
      (PerlinNoise.lerp (PerlinNoise.grad aa xf yf)
        (PerlinNoise.grad ba (xf - 1) yf) (PerlinNoise.fade xf))
      (PerlinNoise.lerp (PerlinNoise.grad ab xf (yf - 1))
        (PerlinNoise.grad bb (xf - 1) (yf - 1)) (PerlinNoise.fade xf))
      (PerlinNoise.fade yf)| ≤ 1 := by
  have hu0 := fade_nonneg hx0
  have hu1 := fade_le_one hx0 hx1
  have hv0 := fade_nonneg hy0
  have hv1 := fade_le_one hy0 hy1
  have g1 : |PerlinNoise.grad aa xf yf| ≤ xf + yf := by
    have h := abs_grad_le aa xf yf
    rwa [abs_of_nonneg hx0, abs_of_nonneg hy0] at h
  have ex : |xf - 1| = -(xf - 1) := abs_of_nonpos (by linarith)
  have ey : |yf - 1| = -(yf - 1) := abs_of_nonpos (by linarith)
  have g2 : |PerlinNoise.grad ba (xf - 1) yf| ≤ (1 - xf) + yf := by
    have h := abs_grad_le ba (xf - 1) yf
    rw [ex, abs_of_nonneg hy0] at h
    linarith
  have g3 : |PerlinNoise.grad ab xf (yf - 1)| ≤ xf + (1 - yf) := by
    have h := abs_grad_le ab xf (yf - 1)
    rw [abs_of_nonneg hx0, ey] at h
    linarith
  have g4 : |PerlinNoise.grad bb (xf - 1) (yf - 1)| ≤ (1 - xf) + (1 - yf) := by
    have h := abs_grad_le bb (xf - 1) (yf - 1)
    rw [ex, ey] at h
    linarith
  have hA := abs_lerp_le hu0 hu1 g1 g2
  have hB := abs_lerp_le hu0 hu1 g3 g4
  have hTop := abs_lerp_le hv0 hv1 hA hB
  have hx := phi_le_half hx0 hx1
  have hy := phi_le_half hy0 hy1
  have hsum : (1 - PerlinNoise.fade yf) *
        ((1 - PerlinNoise.fade xf) * (xf + yf) +
          PerlinNoise.fade xf * ((1 - xf) + yf)) +
      PerlinNoise.fade yf *
        ((1 - PerlinNoise.fade xf) * (xf + (1 - yf)) +
          PerlinNoise.fade xf * ((1 - xf) + (1 - yf))) =
      (xf + PerlinNoise.fade xf * (1 - 2 * xf)) +
        (yf + PerlinNoise.fade yf * (1 - 2 * yf)) := by
    ring
  linarith

/-- C4: for every seed and every pair of rational coordinates (doubles being
rationals), the noise field's `sample`/`get` — lattice hashing through the
seeded permutation table, fade curve, gradient selection via `hash & 3`,
bilinear interpolation, remap via `(value+1)/2` — returns a value in [0,1]. -/
theorem noise_sample_bounded (seed : ℕ) (x y : ℚ) :
    0 ≤ (mkPerlinNoise seed).get x y ∧ (mkPerlinNoise seed).get x y ≤ 1 := by
  unfold PerlinNoise.get
  dsimp only
  have hx0 : (0 : ℚ) ≤ x - ⌊x⌋ := by
    have := Int.fract_nonneg x
    rwa [Int.fract] at this
  have hx1 : x - (⌊x⌋ : ℚ) ≤ 1 := by
    have := Int.fract_lt_one x
    rw [Int.fract] at this
    linarith
  have hy0 : (0 : ℚ) ≤ y - ⌊y⌋ := by
    have := Int.fract_nonneg y
    rwa [Int.fract] at this
  have hy1 : y - (⌊y⌋ : ℚ) ≤ 1 := by
    have := Int.fract_lt_one y
    rw [Int.fract] at this
    linarith
  have h := perlin_res_abs_le
    ((mkPerlinNoise seed).permutation.getD
      ((mkPerlinNoise seed).permutation.getD (⌊x⌋ % 256).toNat 0 + (⌊y⌋ % 256).toNat) 0)
    ((mkPerlinNoise seed).permutation.getD
      ((mkPerlinNoise seed).permutation.getD ((⌊x⌋ % 256).toNat + 1) 0 + (⌊y⌋ % 256).toNat) 0)
    ((mkPerlinNoise seed).permutation.getD
      ((mkPerlinNoise seed).permutation.getD (⌊x⌋ % 256).toNat 0 + (⌊y⌋ % 256).toNat + 1) 0)
    ((mkPerlinNoise seed).permutation.getD
      ((mkPerlinNoise seed).permutation.getD ((⌊x⌋ % 256).toNat + 1) 0 + (⌊y⌋ % 256).toNat + 1) 0)
    hx0 hx1 hy0 hy1
  have habs := abs_le.mp h
  constructor <;> linarith [habs.1, habs.2]

end AbstractImage
